import Mathlib

/-!
Verification of the mailfeed feed-delivery core against its specification.

The definitions below are a shallow embedding of the Rust sources:
subscription scheduling (`tasks/telegram_sender/runner.rs`,
`email_sender.rs`), feed-metadata merging (`tasks/feed_monitor/types.rs`),
feed-item ingestion (`models/feed_item.rs`), the Telegram message
composer/truncator (`tasks/telegram_sender/runner.rs`), and the password
encryption wrapper (`security/encryption.rs`).  Machine integers (i32
timestamps) are modelled as `Int`; database tables as lists of rows in
insertion order; fallible operations as `Option`/`Except`.
-/

namespace Mailfeed

/-! ## Data model (models/subscription.rs, models/feed.rs, models/feed_item.rs) -/

/-- `Frequency` from `models/subscription.rs`: realtime, hourly, daily. -/
inductive Frequency
  | Realtime
  | Hourly
  | Daily
deriving DecidableEq, Repr

/-- `Subscription` row from `models/subscription.rs` (fields the delivery
    tasks read). -/
structure Subscription where
  id : Int
  user_id : Int
  friendly_name : String
  frequency : Frequency
  last_sent_time : Int
  max_items : Int
  is_active : Bool
  feed_id : Int
deriving DecidableEq, Repr

/-- `FeedType` from `models/feed.rs`: Unknown | Atom | Rss | JsonFeed. -/
inductive FeedType
  | Unknown
  | Atom
  | Rss
  | JsonFeed
deriving DecidableEq, Repr

/-- `Feed` row from `models/feed.rs` (fields the merger reads). -/
structure Feed where
  id : Int
  url : String
  feed_type : FeedType
  title : String
  last_updated : Int
deriving DecidableEq, Repr

/-- `FeedItem` row from `models/feed_item.rs`. -/
structure FeedItem where
  id : Int
  feed_id : Int
  title : String
  link : String
  pub_date : Int
  description : Option String
  author : Option String
deriving DecidableEq, Repr

/-- `NewFeedItem` from `models/feed_item.rs` (insertable row, no id). -/
structure NewFeedItem where
  feed_id : Int
  title : String
  link : String
  pub_date : Int
  description : Option String
  author : Option String
deriving DecidableEq, Repr

/-! ## Delivery scheduling (tasks/telegram_sender/runner.rs lines 96-101,
    identical in email_sender.rs lines 138-143) -/

/-- The due test of `items_to_send_by_user`:
    `match sub.frequency { Realtime => true, Hourly => now - last_sent > 3600,
    Daily => now - last_sent > 86400 }`. -/
def shouldSend (frequency : Frequency) (now last_sent : Int) : Bool :=
  match frequency with
  | .Realtime => true
  | .Hourly => now - last_sent > 3600
  | .Daily => now - last_sent > 86400

/-! ## Feed metadata merger (mailfeed/src/tasks/feed_monitor/types.rs) -/

/-- `feed_rs::model::FeedType`: the parser's feed-type vocabulary. -/
inductive ParsedFeedType
  | Atom
  | RSS0
  | RSS1
  | RSS2
  | JSON
deriving DecidableEq, Repr

/-- A parsed entry (`feed_rs::model::Entry`), restricted to the fields the
    merger and ingestor read.  `links` is the entry's list of link hrefs. -/
structure ParsedEntry where
  title : Option String
  summary : Option String
  links : List String
  published : Option Int
  authors : List String
deriving DecidableEq, Repr

/-- A parsed feed (`feed_rs::model::Feed`), restricted to the fields the
    merger reads. -/
structure ParsedFeed where
  feed_type : ParsedFeedType
  title : Option String
  updated : Option Int
  entries : List ParsedEntry
deriving DecidableEq, Repr

/-- `FeedUpdates::set_feed_type`: if the existing feed has `Unknown` type,
    propose the mapped parser type (Atom→Atom, RSS0/1/2→Rss, JSON→JsonFeed);
    otherwise propose nothing. -/
def setFeedType (parsed : ParsedFeed) (existing : Feed) : Option FeedType :=
  if existing.feed_type = FeedType.Unknown then
    some (match parsed.feed_type with
      | .Atom => FeedType.Atom
      | .RSS0 => FeedType.Rss
      | .RSS1 => FeedType.Rss
      | .RSS2 => FeedType.Rss
      | .JSON => FeedType.JsonFeed)
  else
    none

/-- `FeedUpdates::set_title`: if the existing title is empty and the parsed
    feed has a title, propose it; otherwise propose nothing. -/
def setTitle (parsed : ParsedFeed) (existing : Feed) : Option String :=
  if existing.title = "" then
    match parsed.title with
    | some t => some t
    | none => none
  else
    none

/-- The candidate computed inside `set_last_updated`'s `and_then` closure:
    `newest_item_ts = parsed.entries.first().and_then(|i| i.published)`,
    then `newest_item_ts.map_or(last_updated, |n| if n > last_updated then
    n else last_updated)`. -/
def codeCandidate (parsed : ParsedFeed) (last_updated : Int) : Int :=
  match (parsed.entries.head?).bind fun i => i.published with
  | none => last_updated
  | some newest_item_ts =>
    if newest_item_ts > last_updated then newest_item_ts else last_updated

/-- `FeedUpdates::set_last_updated`: starting from `parsed.updated`
    (`None` short-circuits via `.map(...).and_then(...)`), raise it to the
    newest entry's published time when that is larger (`codeCandidate`),
    and propose the result iff it differs from `existing.last_updated`. -/
def setLastUpdated (parsed : ParsedFeed) (existing : Feed) : Option Int :=
  (parsed.updated).bind fun last_updated =>
    if existing.last_updated ≠ codeCandidate parsed last_updated then
      some (codeCandidate parsed last_updated)
    else none

/-- The candidate timestamp described by the spec sentence for
    `last_updated`: the maximum of the parsed feed-level `updated` and the
    newest entry's `published`, whichever of the two is present or larger.
    (Spec-side definition, for comparison with `setLastUpdated`.) -/
def specCandidate (parsed : ParsedFeed) : Option Int :=
  match parsed.updated, (parsed.entries.head?).bind fun i => i.published with
  | none, none => none
  | some u, none => some u
  | none, some n => some n
  | some u, some n => some (max u n)

/-! ## Item store queries (models/feed_item.rs) and delivery collection -/

/-- `FeedItem::items_after`: the stored items of `feed_id` whose `pub_date`
    is strictly greater than `time_after`, in store order (the SQL query has
    no ORDER BY and no LIMIT). -/
def itemsAfter (store : List FeedItem) (feed_id time_after : Int) : List FeedItem :=
  store.filter fun item =>
    (item.feed_id = feed_id : Bool) && (item.pub_date > time_after : Bool)

/-- `FeedItem::has`: existence check by the `(feed_id, link, pub_date)` key. -/
def hasItem (store : List FeedItem) (item : NewFeedItem) : Bool :=
  store.any fun it =>
    (it.feed_id = item.feed_id : Bool) && (it.link = item.link : Bool) &&
      (it.pub_date = item.pub_date : Bool)

/-- Materialize a `NewFeedItem` as a stored row with a fresh id (the
    database-assigned rowid of the diesel insert). -/
def toFeedItem (id : Int) (n : NewFeedItem) : FeedItem :=
  { id := id, feed_id := n.feed_id, title := n.title, link := n.link,
    pub_date := n.pub_date, description := n.description, author := n.author }

/-- `NewFeedItem::insert_if_not_present`: return `Ok(None)` leaving the
    store unchanged when an item with the same key exists, otherwise insert
    and return the new row. -/
def insertIfNotPresent (store : List FeedItem) (next_id : Int)
    (item : NewFeedItem) : Option FeedItem × List FeedItem :=
  if hasItem store item then (none, store)
  else (some (toFeedItem next_id item), store ++ [toFeedItem next_id item])

/-- Number of stored items with the given item's `(feed_id, link, pub_date)`
    key. -/
def countKey (store : List FeedItem) (item : NewFeedItem) : Nat :=
  store.countP fun it =>
    (it.feed_id = item.feed_id : Bool) && (it.link = item.link : Bool) &&
      (it.pub_date = item.pub_date : Bool)

/-! ## Telegram delivery tick (tasks/telegram_sender/runner.rs) -/

/-- `FeedData` from `tasks/telegram_sender/types.rs`. -/
structure FeedData where
  sub_id : Int
  new_items : List FeedItem
  feed_title : String
  feed_link : String
deriving DecidableEq, Repr

/-- `Subscription::update` with `PartialSubscription { last_sent_time:
    Some(t) }`: set `last_sent_time` on the rows whose id matches. -/
def updateLastSent (subs : List Subscription) (sub_id t : Int) :
    List Subscription :=
  subs.map fun s => if s.id = sub_id then { s with last_sent_time := t } else s

/-- One iteration of the `for feed_data in &delivery_data.feed_data` loop of
    the Telegram sender (`start`, lines 52-82): skip when `new_items` is
    empty; send; on error `continue` without touching the subscription; on
    success set `last_sent_time := now`. -/
def processFeedData (send : FeedData → Bool) (now : Int)
    (subs : List Subscription) (fd : FeedData) : List Subscription :=
  if fd.new_items.isEmpty then subs
  else if send fd then updateLastSent subs fd.sub_id now
  else subs

/-- The whole per-user delivery loop of one Telegram tick. -/
def processDeliveryTick (send : FeedData → Bool) (now : Int)
    (subs : List Subscription) (fds : List FeedData) : List Subscription :=
  fds.foldl (processFeedData send now) subs

/-- `items_to_send_by_user` (telegram_sender/runner.rs lines 87-129): for
    each of the user's subscriptions, skip when not due (`shouldSend`) or
    when the feed row is missing; collect `items_after(feed_id,
    last_sent_time)` when non-empty. -/
def itemsToSendByUser (now : Int) (store : List FeedItem) (feeds : List Feed)
    (subs : List Subscription) : List FeedData :=
  subs.foldl
    (fun feed_data sub =>
      if !shouldSend sub.frequency now sub.last_sent_time then feed_data
      else
        match feeds.find? (fun f => f.id = sub.feed_id) with
        | none => feed_data
        | some feed =>
          let new_items := itemsAfter store sub.feed_id sub.last_sent_time
          if !new_items.isEmpty then
            feed_data ++ [{ sub_id := sub.id, new_items := new_items,
                            feed_title := feed.title, feed_link := feed.url }]
          else feed_data)
    []

/-! ## Email delivery collection (tasks/email_sender/runner.rs) -/

/-- The cutoff used by `get_new_feed_items` (email_sender/runner.rs lines
    263-268): a fixed look-back window per frequency, not the
    subscription's `last_sent_time`. -/
def cutoffTime (now : Int) (frequency : Frequency) : Int :=
  match frequency with
  | .Realtime => now - 5 * 60
  | .Hourly => now - 3600
  | .Daily => now - 86400

/-- The descending-by-`pub_date` order used in `ORDER BY pub_date DESC`. -/
def pubDateGe (a b : FeedItem) : Prop := b.pub_date ≤ a.pub_date

instance : DecidableRel pubDateGe := fun a b =>
  inferInstanceAs (Decidable (b.pub_date ≤ a.pub_date))

instance : IsTotal FeedItem pubDateGe :=
  ⟨fun a b => le_total b.pub_date a.pub_date⟩

instance : IsTrans FeedItem pubDateGe :=
  ⟨fun _ _ _ h1 h2 => le_trans h2 h1⟩

/-- `get_new_feed_items` (email_sender/runner.rs lines 258-276): items of
    the subscription's feed with `pub_date` greater than the frequency
    cutoff, ordered by `pub_date` descending, limited to `max_items` rows. -/
def getNewFeedItems (now : Int) (store : List FeedItem)
    (sub : Subscription) : List FeedItem :=
  (((store.filter fun item =>
      (item.feed_id = sub.feed_id : Bool) &&
        (item.pub_date > cutoffTime now sub.frequency : Bool)).insertionSort
      pubDateGe).take sub.max_items.toNat)

/-! ## Feed item ingestion entry step (tasks/feed_monitor/runner.rs) -/

/-- The per-entry step of `parse_and_insert` (feed_monitor/runner.rs lines
    119-137): build the `NewFeedItem` for a parsed entry.  The link is read
    as `entry.links[0].href` — Rust slice indexing, which panics when the
    entry has no links; the panic is modelled as `Except.error`. -/
def entryToNewFeedItem (feed : Feed) (entry : ParsedEntry) :
    Except String NewFeedItem :=
  match entry.links with
  | [] => Except.error "index out of bounds: entry.links[0]"
  | l0 :: _ =>
    Except.ok
      { feed_id := feed.id
        title := ((entry.title).or entry.summary).getD feed.title
        link := l0
        pub_date := (entry.published).getD 0
        description := entry.summary
        author := entry.authors.head? }

/-! ## Telegram message composition and truncation
    (tasks/telegram_sender/runner.rs lines 131-222)

    Rust strings are modelled as lists of Unicode scalar values; byte
    indices are recovered through `Char.utf8Size`.  Valid UTF-8 is
    self-synchronizing, so a byte-level substring search (`str::rfind`)
    can only match at character boundaries; `rfind` is therefore modelled
    at the character level with its result converted to a byte index. -/

/-- UTF-8 byte length of a character list (Rust `str::len`). -/
def byteLen (s : List Char) : Nat := (s.map Char.utf8Size).sum

/-- Rust `str::is_char_boundary` at byte index `i` (`i = len` counts as a
    boundary; an index inside a multi-byte character does not). -/
def isCharBoundary : List Char → Nat → Bool
  | _, 0 => true
  | [], _ + 1 => false
  | c :: cs, i + 1 =>
    if i + 1 < c.utf8Size then false
    else isCharBoundary cs (i + 1 - c.utf8Size)

/-- The characters wholly contained in the first `n` bytes (`&s[..n]` at a
    boundary `n`; the retained part of `String::truncate`). -/
def takeBytes : List Char → Nat → List Char
  | [], _ => []
  | c :: cs, n =>
    if c.utf8Size ≤ n then c :: takeBytes cs (n - c.utf8Size) else []

/-- The `while i > 0 && !is_char_boundary(i) { i -= 1 }` loops of
    `format_telegram_message`: the largest byte index `≤ i` that is a
    character boundary (0 if none). -/
def floorCharBoundary (s : List Char) : Nat → Nat
  | 0 => 0
  | i + 1 => if isCharBoundary s (i + 1) then i + 1 else floorCharBoundary s i

/-- Rust `String::truncate` at byte index `n`: no effect at or beyond the
    end, panic (modelled as `Except.error`) off a character boundary. -/
def truncateBytes (s : List Char) (n : Nat) : Except String (List Char) :=
  if byteLen s ≤ n then Except.ok s
  else if isCharBoundary s n then Except.ok (takeBytes s n)
  else Except.error "new_len does not lie on a char boundary"

/-- The fallback loop `while safe_truncate_pos > 0 &&
    message.chars().nth(safe_truncate_pos) != Some('\n')`: the largest
    character index `≤ pos` holding `'\n'` (0 if none). -/
def findNlCharIdx (s : List Char) : Nat → Nat
  | 0 => 0
  | p + 1 => if s.get? (p + 1) = some '\n' then p + 1 else findNlCharIdx s p

/-- Character index of the last occurrence of `pat` in `s`. -/
def rfindCharIdx (pat : List Char) : List Char → Option Nat
  | [] => if pat.isEmpty then some 0 else none
  | c :: cs =>
    match rfindCharIdx pat cs with
    | some j => some (j + 1)
    | none => if pat.isPrefixOf (c :: cs) then some 0 else none

/-- `str::rfind`: byte index of the last occurrence of `pat` in `s`. -/
def rfindByteIdx (pat s : List Char) : Option Nat :=
  (rfindCharIdx pat s).map fun i => byteLen (s.take i)

/-- The per-item separator pushed after every item (13 `─` and a newline). -/
def SEPARATOR : List Char := "─────────────\n".toList

/-- The conservative Telegram length ceiling checked before truncation. -/
def TELEGRAM_LIMIT : Nat := 3900

/-- `str::replace` of a single character by a replacement string. -/
def replaceChar (s : List Char) (c : Char) (r : List Char) : List Char :=
  s.flatMap fun x => if x = c then r else [x]

/-- `escape_html_text`: `&`→`&amp;`, then `<`→`&lt;`, then `>`→`&gt;`. -/
def escapeHtmlText (s : List Char) : List Char :=
  replaceChar (replaceChar (replaceChar s '&' "&amp;".toList)
    '<' "&lt;".toList) '>' "&gt;".toList

/-- The text appended for one item inside the `for item in
    &feed_data.new_items` loop of `format_telegram_message`.  `formatDate`
    abstracts chrono's `format("%Y-%m-%d %H:%M:%S")`. -/
def formatItem (formatDate : Int → List Char) (item : FeedItem) : List Char :=
  let description := (item.description).getD "No description provided"
  let clean_title := escapeHtmlText item.title.toList
  let clean_description := escapeHtmlText description.toList
  let truncated_desc :=
    if byteLen clean_description > 200 then
      takeBytes clean_description (floorCharBoundary clean_description 197) ++
        "...".toList
    else clean_description
  "📄 <a href=\"".toList ++ item.link.toList ++ "\">".toList ++ clean_title ++
    "</a>\n".toList ++
  "🕐 ".toList ++ formatDate item.pub_date ++ "\n".toList ++
  (match item.author with
    | some author => "👤 ".toList ++ escapeHtmlText author.toList ++ "\n".toList
    | none => []) ++
  truncated_desc ++ "\n".toList ++
  SEPARATOR

/-- The message built by `format_telegram_message` before the length check:
    header (escaped feed title, unescaped feed link) followed by the items. -/
def composeTelegramMessage (formatDate : Int → List Char) (fd : FeedData) :
    List Char :=
  "<b>📰 ".toList ++ escapeHtmlText fd.feed_title.toList ++
    "</b>\n<a href=\"".toList ++ fd.feed_link.toList ++
    "\">View Feed</a>\n\n".toList ++
  fd.new_items.flatMap (formatItem formatDate)

/-- The notice appended after truncating at a separator boundary. -/
def TRUNC_NOTICE : List Char := "<i>... more items truncated ...</i>".toList

/-- The notice appended by the fallback (no separator found) branch. -/
def FALLBACK_NOTICE : List Char := "\n\n<i>... message truncated ...</i>".toList

/-- The length-ceiling enforcement of `format_telegram_message` (lines
    193-219): when the message exceeds 3900 bytes, lower 3900 to a
    character boundary, truncate after the last separator before it; if no
    separator is found, walk character indices down to the previous `'\n'`
    and truncate at that *character* index used as a *byte* index (the
    source's `chars().nth(pos)` / `truncate(pos)` pair). -/
def truncateTelegramMessage (message : List Char) :
    Except String (List Char) :=
  if byteLen message > TELEGRAM_LIMIT then
    let safe0 := floorCharBoundary message TELEGRAM_LIMIT
    match rfindByteIdx SEPARATOR (takeBytes message safe0) with
    | some last_separator =>
      (truncateBytes message (last_separator + byteLen SEPARATOR)).map
        fun m => m ++ TRUNC_NOTICE
    | none =>
      let pos := findNlCharIdx message safe0
      if pos > 0 then
        (truncateBytes message pos).map fun m => m ++ FALLBACK_NOTICE
      else Except.ok message
  else Except.ok message

/-- `format_telegram_message`: composition followed by the length ceiling. -/
def formatTelegramMessage (formatDate : Int → List Char) (fd : FeedData) :
    Except String (List Char) :=
  truncateTelegramMessage (composeTelegramMessage formatDate fd)

/-- A stored item title of 4046 characters: 3838 `y`, an emoji, 7 `y`, a
    newline, 200 `z`.  Such a title defeats the truncation logic: the first
    separator lies beyond byte 3900, and the newline found by the fallback
    loop sits at a character index whose byte position falls inside the
    4-byte emoji. -/
def longTitle : List Char :=
  List.replicate 3838 'y' ++ '😀' ::
    (List.replicate 7 'y' ++ '\n' :: List.replicate 200 'z')

/-- The delivery payload holding the item with `longTitle`. -/
def panicFeedData : FeedData :=
  FeedData.mk 9 [FeedItem.mk 1 1 (String.mk longTitle) "l" 0 none none] "T" "L"

/-- The concrete composed-message prefix before the title (52 characters,
    58 bytes). -/
def panicHead : List Char :=
  "<b>📰 T</b>\n<a href=\"L\">View Feed</a>\n\n📄 <a href=\"l\">".toList

/-- The concrete composed-message suffix after the title (65 characters,
    94 bytes). -/
def panicTail : List Char :=
  "</a>\n🕐 1970-01-01 00:00:00\nNo description provided\n─────────────\n".toList

/-- The composed message for `panicFeedData`, in right-nested form. -/
def panicMessage : List Char :=
  panicHead ++ (List.replicate 3838 'y' ++ ('😀' ::
    (List.replicate 7 'y' ++ ('\n' :: (List.replicate 200 'z' ++ panicTail)))))

/-! ## Password encryption wrapper (security/encryption.rs) -/

/-- ring's `NONCE_LEN` for AES-256-GCM: 12 bytes. -/
def NONCE_LEN : Nat := 12

/-- `PasswordEncryption::encrypt`, abstracted over the external libraries:
    `seal` is ring's `seal_in_place_append_tag` (returns ciphertext plus
    tag), `b64enc` the base64 STANDARD engine's encode, `utf8enc` Rust's
    `str::as_bytes`.  The caller-drawn random `nonce` (`rng.fill`) is
    prepended to the sealed bytes and the whole is base64-encoded. -/
def encryptPassword (sealFn : List Nat → List Nat → List Nat)
    (b64enc : List Nat → String) (utf8enc : String → List Nat)
    (nonce : List Nat) (plaintext : String) : String :=
  b64enc (nonce ++ sealFn nonce (utf8enc plaintext))

/-- `PasswordEncryption::decrypt`: base64-decode (error "Invalid base64" on
    failure), reject decoded data shorter than the nonce ("Invalid
    encrypted data"), split off the 12-byte nonce (the `try_into`
    conversion, "Invalid nonce" if it is not exactly 12 bytes), open the
    AEAD ("Decryption failed" on failure), and re-decode UTF-8 ("Invalid
    UTF-8" on failure). -/
def decryptPassword (openAead : List Nat → List Nat → Option (List Nat))
    (b64dec : String → Option (List Nat)) (utf8dec : List Nat → Option String)
    (encrypted : String) : Except String String :=
  match b64dec encrypted with
  | none => Except.error "Invalid base64"
  | some data =>
    if data.length < NONCE_LEN then Except.error "Invalid encrypted data"
    else
      let nonce_bytes := data.take NONCE_LEN
      let ciphertext := data.drop NONCE_LEN
      if nonce_bytes.length = NONCE_LEN then
        match openAead nonce_bytes ciphertext with
        | none => Except.error "Decryption failed"
        | some pt =>
          match utf8dec pt with
          | none => Except.error "Invalid UTF-8"
          | some s => Except.ok s
      else Except.error "Invalid nonce"

/-- A concrete injective byte-list-to-string codec (unary groups of `a`
    terminated by `b`), used to instantiate the abstract base64 engine of
    the encryption wrapper in witnesses. -/
def natsToChars : List Nat → List Char
  | [] => []
  | b :: rest => List.replicate b 'a' ++ 'b' :: natsToChars rest

/-- Decoder of `natsToChars`: a `b` closes a group (prepending 0), an `a`
    increments the first group of the parsed tail. -/
def charsToNats : List Char → Option (List Nat)
  | [] => some []
  | c :: rest =>
    if c = 'b' then (charsToNats rest).map (fun l => 0 :: l)
    else if c = 'a' then
      match charsToNats rest with
      | some (k :: ks) => some ((k + 1) :: ks)
      | _ => none
    else none

end Mailfeed

namespace Mailfeed

/-- Reduction of `setLastUpdated` when the feed-level `updated` is present. -/
theorem setLastUpdated_some_updated (parsed : ParsedFeed) (existing : Feed)
    (u : Int) (hu : parsed.updated = some u) :
    setLastUpdated parsed existing =
      if existing.last_updated ≠ codeCandidate parsed u then
        some (codeCandidate parsed u)
      else none := by
  unfold setLastUpdated
  rw [hu]
  rfl

/-- `specCandidate` agrees with `codeCandidate` when the feed-level
    `updated` is present. -/
theorem specCandidate_some_updated (parsed : ParsedFeed) (u : Int)
    (hu : parsed.updated = some u) :
    specCandidate parsed = some (codeCandidate parsed u) := by
  unfold specCandidate codeCandidate
  rw [hu]
  cases hn : (parsed.entries.head?).bind fun i => i.published with
  | none => rfl
  | some n =>
    simp only []
    congr 1
    rcases lt_or_le u n with h | h
    · rw [max_eq_right h.le, if_pos h]
    · rw [max_eq_left h, if_neg (not_lt.mpr h)]

/-! # Theorems -/

/-- C1: the scheduler's due test is always true for Realtime, and for
    Hourly/Daily is true iff strictly more than 3600/86400 seconds elapsed
    since `last_sent_time`; at the exact boundary it is false. -/
theorem c1_frequency_due (now last_sent : Int) :
    shouldSend Frequency.Realtime now last_sent = true ∧
    (shouldSend Frequency.Hourly now last_sent = true ↔ now - last_sent > 3600) ∧
    (shouldSend Frequency.Daily now last_sent = true ↔ now - last_sent > 86400) ∧
    shouldSend Frequency.Hourly (last_sent + 3600) last_sent = false ∧
    shouldSend Frequency.Daily (last_sent + 86400) last_sent = false := by
  refine ⟨rfl, ?_, ?_, ?_, ?_⟩
  · simp [shouldSend]
  · simp [shouldSend]
  · simp [shouldSend]
  · simp [shouldSend]

/-- C6 counterexample: with stored `last_updated = 100`, a parse whose
    feed-level `updated` is 50 and that has no entries makes the merger
    propose 50, which is strictly smaller than the stored value — so the
    proposed value is not always ≥ the stored one. -/
theorem c6_counterexample :
    setLastUpdated
        { feed_type := ParsedFeedType.Atom, title := none, updated := some 50,
          entries := [] }
        { id := 1, url := "u", feed_type := FeedType.Atom, title := "t",
          last_updated := 100 } = some 50 ∧
    (50 : Int) < 100 := by
  constructor
  · rfl
  · decide

/-- C6 (amended): whenever the merger proposes a `last_updated` update, the
    proposed value equals the candidate (feed-level `updated` raised to the
    newest entry's published time when larger) and differs from the stored
    value; it is ≥ the stored value whenever that candidate is ≥ the stored
    value, but the merger also proposes candidates smaller than the stored
    value, so the stored `last_updated` can decrease across merges. -/
theorem c6_last_updated_not_monotone (parsed : ParsedFeed) (existing : Feed)
    (v : Int) (hv : setLastUpdated parsed existing = some v) :
    ∃ u, parsed.updated = some u ∧
      v = codeCandidate parsed u ∧
      v ≠ existing.last_updated ∧
      (existing.last_updated ≤ codeCandidate parsed u →
        existing.last_updated ≤ v) := by
  cases hu : parsed.updated with
  | none =>
    unfold setLastUpdated at hv
    rw [hu] at hv
    simp at hv
  | some u =>
    refine ⟨u, rfl, ?_⟩
    rw [setLastUpdated_some_updated parsed existing u hu] at hv
    by_cases h : existing.last_updated = codeCandidate parsed u
    · simp [h] at hv
    · simp [h] at hv
      subst hv
      exact ⟨rfl, fun heq => h heq.symm, fun hle => hle⟩

/-- C6 witness: the amended theorem applied at a concrete proposing merge. -/
theorem c6_last_updated_not_monotone_witness :
    ∃ u, (ParsedFeed.mk ParsedFeedType.Atom none (some 50) []).updated = some u ∧
      (50 : Int) = codeCandidate (ParsedFeed.mk ParsedFeedType.Atom none (some 50) []) u ∧
      (50 : Int) ≠ (Feed.mk 1 "u" FeedType.Atom "t" 100).last_updated ∧
      ((Feed.mk 1 "u" FeedType.Atom "t" 100).last_updated ≤
          codeCandidate (ParsedFeed.mk ParsedFeedType.Atom none (some 50) []) u →
        (Feed.mk 1 "u" FeedType.Atom "t" 100).last_updated ≤ 50) :=
  c6_last_updated_not_monotone
    (ParsedFeed.mk ParsedFeedType.Atom none (some 50) [])
    (Feed.mk 1 "u" FeedType.Atom "t" 100) 50 rfl

/-- C7 counterexample: with the feed-level `updated` absent but an entry
    published at 42 and stored `last_updated = 0`, the spec's candidate is
    `some 42`, different from the stored value, yet the merger proposes no
    update at all — the candidate is not "whichever of the two is present". -/
theorem c7_counterexample :
    setLastUpdated
        { feed_type := ParsedFeedType.Atom, title := none, updated := none,
          entries := [{ title := none, summary := none, links := [],
                        published := some 42, authors := [] }] }
        { id := 1, url := "u", feed_type := FeedType.Atom, title := "t",
          last_updated := 0 } = none ∧
    specCandidate
        { feed_type := ParsedFeedType.Atom, title := none, updated := none,
          entries := [{ title := none, summary := none, links := [],
                        published := some 42, authors := [] }] } = some 42 ∧
    (42 : Int) ≠ 0 := by
  refine ⟨rfl, rfl, by decide⟩

/-- C7 (amended): when the parsed feed-level `updated` timestamp is present
    (`some u`), the merger's candidate equals max(u, newest entry's
    published) — the spec's candidate — and an update is proposed iff that
    candidate differs from the stored value; but when the feed-level
    `updated` is absent, no update is proposed regardless of entry
    timestamps. -/
theorem c7_candidate_requires_updated (parsed : ParsedFeed) (existing : Feed) :
    (∀ u, parsed.updated = some u →
      setLastUpdated parsed existing =
        (if codeCandidate parsed u ≠ existing.last_updated then
          some (codeCandidate parsed u) else none) ∧
      specCandidate parsed = some (codeCandidate parsed u)) ∧
    (parsed.updated = none → setLastUpdated parsed existing = none) := by
  constructor
  · intro u hu
    refine ⟨?_, specCandidate_some_updated parsed u hu⟩
    rw [setLastUpdated_some_updated parsed existing u hu]
    by_cases h : existing.last_updated = codeCandidate parsed u
    · simp [h]
    · simp [h, Ne.symm h]
  · intro hu
    unfold setLastUpdated
    rw [hu]
    rfl

/-- C7 witness: the amended theorem applied at a concrete parse with
    feed-level `updated = some 50` and an entry published at 80. -/
theorem c7_candidate_requires_updated_witness :
    setLastUpdated
        (ParsedFeed.mk ParsedFeedType.Atom none (some 50)
          [ParsedEntry.mk none none [] (some 80) []])
        (Feed.mk 1 "u" FeedType.Atom "t" 0) =
      (if codeCandidate
            (ParsedFeed.mk ParsedFeedType.Atom none (some 50)
              [ParsedEntry.mk none none [] (some 80) []]) 50 ≠
          (Feed.mk 1 "u" FeedType.Atom "t" 0).last_updated then
        some (codeCandidate
          (ParsedFeed.mk ParsedFeedType.Atom none (some 50)
            [ParsedEntry.mk none none [] (some 80) []]) 50) else none) ∧
    specCandidate
        (ParsedFeed.mk ParsedFeedType.Atom none (some 50)
          [ParsedEntry.mk none none [] (some 80) []]) =
      some (codeCandidate
        (ParsedFeed.mk ParsedFeedType.Atom none (some 50)
          [ParsedEntry.mk none none [] (some 80) []]) 50) :=
  (c7_candidate_requires_updated
    (ParsedFeed.mk ParsedFeedType.Atom none (some 50)
      [ParsedEntry.mk none none [] (some 80) []])
    (Feed.mk 1 "u" FeedType.Atom "t" 0)).1 50 rfl

/-- C8: a `feed_type` update is proposed only when the existing type is
    `Unknown`, and then it is exactly the mapped parser type (Atom→Atom,
    RSS0/1/2→Rss, JSON→JsonFeed); a `title` update is proposed only when the
    existing title is empty; once `feed_type` is not `Unknown` or `title` is
    non-empty, no later merge proposes an update for that field. -/
theorem c8_fill_once_fields (parsed : ParsedFeed) (existing : Feed) :
    (setFeedType parsed existing ≠ none →
      existing.feed_type = FeedType.Unknown) ∧
    (existing.feed_type = FeedType.Unknown →
      setFeedType parsed existing =
        some (match parsed.feed_type with
          | .Atom => FeedType.Atom
          | .RSS0 => FeedType.Rss
          | .RSS1 => FeedType.Rss
          | .RSS2 => FeedType.Rss
          | .JSON => FeedType.JsonFeed)) ∧
    (setTitle parsed existing ≠ none → existing.title = "") ∧
    (existing.feed_type ≠ FeedType.Unknown → setFeedType parsed existing = none) ∧
    (existing.title ≠ "" → setTitle parsed existing = none) := by
  refine ⟨?_, ?_, ?_, ?_, ?_⟩
  · intro h
    unfold setFeedType at h
    by_cases he : existing.feed_type = FeedType.Unknown
    · exact he
    · simp [he] at h
  · intro he
    unfold setFeedType
    simp [he]
  · intro h
    unfold setTitle at h
    by_cases he : existing.title = ""
    · exact he
    · simp [he] at h
  · intro he
    unfold setFeedType
    simp [he]
  · intro he
    unfold setTitle
    simp [he]

/-- C8 witness: the theorem applied at a concrete merge into a feed whose
    type is already known and whose title is already set. -/
theorem c8_fill_once_fields_witness :
    setFeedType (ParsedFeed.mk ParsedFeedType.RSS2 (some "New") none [])
        (Feed.mk 1 "u" FeedType.Atom "Old" 0) = none ∧
    setTitle (ParsedFeed.mk ParsedFeedType.RSS2 (some "New") none [])
        (Feed.mk 1 "u" FeedType.Atom "Old" 0) = none :=
  ⟨(c8_fill_once_fields
      (ParsedFeed.mk ParsedFeedType.RSS2 (some "New") none [])
      (Feed.mk 1 "u" FeedType.Atom "Old" 0)).2.2.2.1 (by decide),
   (c8_fill_once_fields
      (ParsedFeed.mk ParsedFeedType.RSS2 (some "New") none [])
      (Feed.mk 1 "u" FeedType.Atom "Old" 0)).2.2.2.2 (by decide)⟩

/-- C1 witness: the due test at 4000 elapsed seconds with Hourly frequency. -/
theorem c1_frequency_due_witness :
    shouldSend Frequency.Hourly 4000 0 = true :=
  ((c1_frequency_due 4000 0).2.1).mpr (by decide)

/-- C2: in one delivery-loop iteration, a failed send leaves the
    subscriptions unchanged; an empty eligible-item set causes no send
    (the outcome does not depend on the send function) and no change; and
    the only possible change is setting the subscription's
    `last_sent_time` to `now` after a successful send of non-empty items. -/
theorem c2_watermark_safety (send : FeedData → Bool) (now : Int)
    (subs : List Subscription) (fd : FeedData) :
    (send fd = false → processFeedData send now subs fd = subs) ∧
    (fd.new_items = [] →
      ∀ send2 : FeedData → Bool, processFeedData send2 now subs fd = subs) ∧
    (fd.new_items ≠ [] → send fd = true →
      processFeedData send now subs fd = updateLastSent subs fd.sub_id now) ∧
    (processFeedData send now subs fd ≠ subs →
      send fd = true ∧ fd.new_items ≠ []) := by
  refine ⟨fun hs => ?_, fun he send2 => ?_, fun hne hs => ?_, fun hch => ?_⟩
  · unfold processFeedData
    rw [hs]
    simp
  · unfold processFeedData
    rw [he]
    simp
  · unfold processFeedData
    rw [hs]
    have hie : fd.new_items.isEmpty = false := by
      cases h : fd.new_items
      · exact absurd h hne
      · rfl
    rw [hie]
    simp
  · unfold processFeedData at hch
    by_cases he : fd.new_items.isEmpty
    · simp [he] at hch
    · by_cases hs : send fd
      · refine ⟨hs, fun h0 => ?_⟩
        rw [h0] at he
        simp at he
      · simp [he, hs] at hch

/-- C2 witness: a failing send of a non-empty item set leaves the
    subscription list unchanged. -/
theorem c2_watermark_safety_witness :
    processFeedData (fun _ => false) 100
      [Subscription.mk 7 1 "s" Frequency.Realtime 5 10 true 1]
      (FeedData.mk 7 [FeedItem.mk 1 1 "a" "l" 10 none none] "T" "U") =
      [Subscription.mk 7 1 "s" Frequency.Realtime 5 10 true 1] :=
  (c2_watermark_safety (fun _ => false) 100
    [Subscription.mk 7 1 "s" Frequency.Realtime 5 10 true 1]
    (FeedData.mk 7 [FeedItem.mk 1 1 "a" "l" 10 none none] "T" "U")).1 rfl

/-- The key predicate of `FeedItem::has` holds of the row materialized from
    the same `NewFeedItem`. -/
theorem toFeedItem_key_matches (id : Int) (item : NewFeedItem) :
    ((toFeedItem id item).feed_id = item.feed_id : Bool) &&
      ((toFeedItem id item).link = item.link : Bool) &&
      ((toFeedItem id item).pub_date = item.pub_date : Bool) = true := by
  simp [toFeedItem]

/-- After `insert_if_not_present`, an item with the same key exists. -/
theorem hasItem_after_insert (store : List FeedItem) (id : Int)
    (item : NewFeedItem) :
    hasItem (insertIfNotPresent store id item).2 item = true := by
  by_cases h : hasItem store item
  · simp [insertIfNotPresent, h]
  · simp only [insertIfNotPresent, h, Bool.false_eq_true, if_false]
    unfold hasItem
    rw [List.any_append]
    simp [toFeedItem]

/-- `insert_if_not_present` on a store already holding the key is a no-op
    returning `Ok(None)`. -/
theorem insertIfNotPresent_of_hasItem (store : List FeedItem) (id : Int)
    (item : NewFeedItem) (h : hasItem store item = true) :
    insertIfNotPresent store id item = (none, store) := by
  simp [insertIfNotPresent, h]

/-- No stored item has the key iff the key count is zero. -/
theorem hasItem_eq_false_iff_countKey (store : List FeedItem)
    (item : NewFeedItem) :
    hasItem store item = false ↔ countKey store item = 0 := by
  unfold hasItem countKey
  rw [List.any_eq_false, List.countP_eq_zero]

/-- C3: `insert_if_not_present` inserts iff no stored item has the same
    `(feed_id, link, pub_date)` key; a second insert of the same key
    returns `Ok(None)` and leaves the store unchanged; and starting from a
    store with no item of that key, both after the first and after the
    second attempt exactly one stored item has the key. -/
theorem c3_idempotent_ingestion (store : List FeedItem) (id1 id2 : Int)
    (item : NewFeedItem) :
    ((insertIfNotPresent store id1 item).1.isSome = true ↔
      hasItem store item = false) ∧
    (insertIfNotPresent (insertIfNotPresent store id1 item).2 id2 item).1 =
      none ∧
    (insertIfNotPresent (insertIfNotPresent store id1 item).2 id2 item).2 =
      (insertIfNotPresent store id1 item).2 ∧
    (countKey store item = 0 →
      countKey (insertIfNotPresent store id1 item).2 item = 1 ∧
      countKey
        (insertIfNotPresent (insertIfNotPresent store id1 item).2 id2 item).2
        item = 1) := by
  have hafter := hasItem_after_insert store id1 item
  have hsecond := insertIfNotPresent_of_hasItem
    (insertIfNotPresent store id1 item).2 id2 item hafter
  refine ⟨?_, ?_, ?_, fun h0 => ?_⟩
  · by_cases h : hasItem store item <;> simp [insertIfNotPresent, h]
  · rw [hsecond]
  · rw [hsecond]
  · have hno : hasItem store item = false :=
      (hasItem_eq_false_iff_countKey store item).mpr h0
    have hsnd : (insertIfNotPresent store id1 item).2 =
        store ++ [toFeedItem id1 item] := by
      simp [insertIfNotPresent, hno]
    have hcount1 : countKey (insertIfNotPresent store id1 item).2 item = 1 := by
      rw [hsnd]
      unfold countKey at h0 ⊢
      rw [List.countP_append, h0]
      simp [toFeedItem]
    refine ⟨hcount1, ?_⟩
    rw [hsecond]
    exact hcount1

/-- C3 witness: inserting the same item twice into an empty store. -/
theorem c3_idempotent_ingestion_witness :
    countKey [] (NewFeedItem.mk 1 "t" "l" 10 none none) = 0 ∧
    countKey
      (insertIfNotPresent
        (insertIfNotPresent [] 1 (NewFeedItem.mk 1 "t" "l" 10 none none)).2
        2 (NewFeedItem.mk 1 "t" "l" 10 none none)).2
      (NewFeedItem.mk 1 "t" "l" 10 none none) = 1 :=
  ⟨rfl,
   ((c3_idempotent_ingestion [] 1 2
      (NewFeedItem.mk 1 "t" "l" 10 none none)).2.2.2 rfl).2⟩

/-- C4: the per-entry ingestion step reads `entry.links[0].href`; on an
    entry whose link list is empty this indexing is out of bounds (a Rust
    panic), modelled here as the error outcome — the entry is neither
    skipped nor given an empty link. -/
theorem c4_zero_links_entry_panics :
    entryToNewFeedItem
      { id := 1, url := "u", feed_type := FeedType.Atom, title := "T",
        last_updated := 0 }
      { title := some "t", summary := none, links := [], published := some 5,
        authors := [] } =
    Except.error "index out of bounds: entry.links[0]" := rfl

/-- C5 counterexample: a due Realtime subscription with `max_items = 1`
    over a store holding two eligible items dated 10 and 20 collects both
    items, in store (ascending) order — the collection is neither capped at
    `max_items` nor ordered by `pub_date` descending. -/
theorem c5_counterexample :
    itemsToSendByUser 100
      [FeedItem.mk 1 1 "a" "l1" 10 none none,
       FeedItem.mk 2 1 "b" "l2" 20 none none]
      [Feed.mk 1 "http://f" FeedType.Rss "FT" 0]
      [Subscription.mk 7 1 "s" Frequency.Realtime 5 1 true 1] =
      [FeedData.mk 7
        [FeedItem.mk 1 1 "a" "l1" 10 none none,
         FeedItem.mk 2 1 "b" "l2" 20 none none] "FT" "http://f"] ∧
    (Subscription.mk 7 1 "s" Frequency.Realtime 5 1 true 1).max_items = 1 ∧
    (FeedItem.mk 1 1 "a" "l1" 10 none none).pub_date <
      (FeedItem.mk 2 1 "b" "l2" 20 none none).pub_date := by
  refine ⟨rfl, rfl, by decide⟩

/-- C5 (amended): the Telegram path collects exactly the stored items of
    the subscription's feed with `pub_date > last_sent_time`, in store
    order (a sublist of the store), with no `max_items` cap and no
    reordering; the email path returns at most `max_items` items ordered by
    `pub_date` descending, but filtered against a fixed per-frequency
    cutoff time rather than `last_sent_time`. -/
theorem c5_collection_characterization (now t fid : Int)
    (store : List FeedItem) (sub : Subscription) :
    (∀ x, x ∈ itemsAfter store fid t ↔
      (x ∈ store ∧ x.feed_id = fid ∧ x.pub_date > t)) ∧
    List.Sublist (itemsAfter store fid t) store ∧
    (getNewFeedItems now store sub).length ≤ sub.max_items.toNat ∧
    List.Pairwise pubDateGe (getNewFeedItems now store sub) ∧
    (∀ x, x ∈ getNewFeedItems now store sub →
      x ∈ store ∧ x.feed_id = sub.feed_id ∧
        x.pub_date > cutoffTime now sub.frequency) := by
  refine ⟨?_, ?_, ?_, ?_, ?_⟩
  · intro x
    unfold itemsAfter
    rw [List.mem_filter]
    simp
  · exact List.filter_sublist store
  · unfold getNewFeedItems
    exact List.length_take_le _ _
  · unfold getNewFeedItems
    exact List.Pairwise.sublist (List.take_sublist _ _)
      (List.sorted_insertionSort pubDateGe _)
  · intro x hx
    unfold getNewFeedItems at hx
    have hx2 := (List.take_sublist _ _).subset hx
    have hx3 := (List.perm_insertionSort pubDateGe _).mem_iff.mp hx2
    rw [List.mem_filter] at hx3
    refine ⟨hx3.1, ?_⟩
    have := hx3.2
    simp at this
    exact this

/-- C5 witness: the characterization applied to a one-item store. -/
theorem c5_collection_characterization_witness :
    FeedItem.mk 1 1 "a" "l1" 10 none none ∈
      itemsAfter [FeedItem.mk 1 1 "a" "l1" 10 none none] 1 5 ∧
    (getNewFeedItems 100 [FeedItem.mk 1 1 "a" "l1" 10 none none]
      (Subscription.mk 7 1 "s" Frequency.Realtime 5 1 true 1)).length ≤
      (Subscription.mk 7 1 "s" Frequency.Realtime 5 1 true 1).max_items.toNat :=
  ⟨((c5_collection_characterization 100 5 1
      [FeedItem.mk 1 1 "a" "l1" 10 none none]
      (Subscription.mk 7 1 "s" Frequency.Realtime 5 1 true 1)).1
      (FeedItem.mk 1 1 "a" "l1" 10 none none)).mpr
      ⟨by simp, rfl, by decide⟩,
   (c5_collection_characterization 100 5 1
      [FeedItem.mk 1 1 "a" "l1" 10 none none]
      (Subscription.mk 7 1 "s" Frequency.Realtime 5 1 true 1)).2.2.1⟩

/-- The unary codec round-trips: decoding an encoding returns the input. -/
theorem charsToNats_natsToChars (bs : List Nat) :
    charsToNats (natsToChars bs) = some bs := by
  induction bs with
  | nil => rfl
  | cons b rest ih =>
    show charsToNats (List.replicate b 'a' ++ 'b' :: natsToChars rest) =
      some (b :: rest)
    induction b with
    | zero => simp [charsToNats, ih]
    | succ b ihb =>
      rw [List.replicate_succ, List.cons_append]
      simp only [charsToNats, ihb]
      rfl

/-- C10: with any AEAD seal/open pair and base64 and UTF-8 codecs
    satisfying their decode-encode contracts, decrypting an encryption of
    any plaintext under any 12-byte nonce returns exactly the plaintext;
    and decrypt returns an error (it is a total function — no panic) on any
    input that is not valid base64, or whose decoded form is shorter than
    the 12-byte nonce prefix. -/
theorem c10_encrypt_decrypt_roundtrip
    (sealFn : List Nat → List Nat → List Nat)
    (openAead : List Nat → List Nat → Option (List Nat))
    (b64enc : List Nat → String) (b64dec : String → Option (List Nat))
    (utf8enc : String → List Nat) (utf8dec : List Nat → Option String)
    (hseal : ∀ n d, openAead n (sealFn n d) = some d)
    (hb64 : ∀ bs, b64dec (b64enc bs) = some bs)
    (hutf8 : ∀ s, utf8dec (utf8enc s) = some s)
    (nonce : List Nat) (hn : nonce.length = NONCE_LEN) (plaintext : String) :
    decryptPassword openAead b64dec utf8dec
        (encryptPassword sealFn b64enc utf8enc nonce plaintext) =
      Except.ok plaintext ∧
    (∀ s, b64dec s = none →
      decryptPassword openAead b64dec utf8dec s =
        Except.error "Invalid base64") ∧
    (∀ s d, b64dec s = some d → d.length < NONCE_LEN →
      decryptPassword openAead b64dec utf8dec s =
        Except.error "Invalid encrypted data") := by
  have hred : ∀ (s : String) (data : List Nat), b64dec s = some data →
      decryptPassword openAead b64dec utf8dec s =
        if data.length < NONCE_LEN then Except.error "Invalid encrypted data"
        else if (data.take NONCE_LEN).length = NONCE_LEN then
          (match openAead (data.take NONCE_LEN) (data.drop NONCE_LEN) with
            | none => Except.error "Decryption failed"
            | some pt =>
              match utf8dec pt with
              | none => Except.error "Invalid UTF-8"
              | some s2 => Except.ok s2)
        else Except.error "Invalid nonce" := by
    intro s data hdec
    unfold decryptPassword
    rw [hdec]
  refine ⟨?_, ?_, ?_⟩
  · unfold encryptPassword
    rw [hred _ _ (hb64 _)]
    have hlen : ¬((nonce ++ sealFn nonce (utf8enc plaintext)).length < NONCE_LEN) := by
      rw [List.length_append, hn]
      omega
    rw [if_neg hlen]
    rw [List.take_left' hn, List.drop_left' hn]
    rw [if_pos hn, hseal]
    show (match utf8dec (utf8enc plaintext) with
      | none => Except.error "Invalid UTF-8"
      | some s2 => Except.ok s2) = Except.ok plaintext
    rw [hutf8]
  · intro s hs
    unfold decryptPassword
    rw [hs]
  · intro s d hs hshort
    rw [hred _ _ hs]
    rw [if_pos hshort]

/-- C10 witness: the round-trip theorem instantiated with an identity AEAD,
    the unary codec for base64, and character-code lists for UTF-8, at the
    plaintext "hunter2" and the all-zero nonce. -/
theorem c10_encrypt_decrypt_roundtrip_witness :
    decryptPassword (fun _ d => some d) (fun s => charsToNats s.toList)
        (fun bs => some (String.mk (bs.map Char.ofNat)))
        (encryptPassword (fun _ d => d)
          (fun bs => String.mk (natsToChars bs))
          (fun s => s.toList.map Char.toNat)
          (List.replicate 12 0) "hunter2") =
      Except.ok "hunter2" :=
  (c10_encrypt_decrypt_roundtrip
    (fun _ d => d) (fun _ d => some d)
    (fun bs => String.mk (natsToChars bs)) (fun s => charsToNats s.toList)
    (fun s => s.toList.map Char.toNat)
    (fun bs => some (String.mk (bs.map Char.ofNat)))
    (fun _ _ => rfl)
    (fun bs => charsToNats_natsToChars bs)
    (fun s => by
      show some (String.mk ((s.toList.map Char.toNat).map Char.ofNat)) = some s
      have hmap : (s.toList.map Char.toNat).map Char.ofNat = s.toList := by
        rw [List.map_map]
        have hid : ∀ l : List Char, l.map (Char.ofNat ∘ Char.toNat) = l := by
          intro l
          induction l with
          | nil => rfl
          | cons c cs ih =>
            simp only [List.map_cons, Function.comp_apply, Char.ofNat_toNat, ih]
        exact hid s.toList
      rw [hmap]
      rfl)
    (List.replicate 12 0) (by decide) "hunter2").1

/-! Helper lemmas about the byte-level string model, used to settle the
    Telegram truncation claim without normalizing 4000-character lists. -/

theorem byteLen_cons (c : Char) (l : List Char) :
    byteLen (c :: l) = c.utf8Size + byteLen l := by
  simp [byteLen]

theorem byteLen_append (l1 l2 : List Char) :
    byteLen (l1 ++ l2) = byteLen l1 + byteLen l2 := by
  simp [byteLen]

theorem byteLen_replicate (n : Nat) (c : Char) :
    byteLen (List.replicate n c) = n * c.utf8Size := by
  simp [byteLen, List.map_replicate, List.sum_replicate, smul_eq_mul]

theorem isCharBoundary_zero (s : List Char) : isCharBoundary s 0 = true := by
  cases s <;> rfl

theorem isCharBoundary_cons (c : Char) (cs : List Char) (n : Nat)
    (hn : n ≠ 0) :
    isCharBoundary (c :: cs) n =
      if n < c.utf8Size then false else isCharBoundary cs (n - c.utf8Size) := by
  cases n with
  | zero => exact absurd rfl hn
  | succ i => rfl

theorem isCharBoundary_append (l1 l2 : List Char) (n : Nat)
    (h : byteLen l1 ≤ n) :
    isCharBoundary (l1 ++ l2) n = isCharBoundary l2 (n - byteLen l1) := by
  induction l1 generalizing n with
  | nil => simp [byteLen]
  | cons c cs ih =>
    rw [byteLen_cons] at h
    have hpos := Char.utf8Size_pos c
    have hn0 : n ≠ 0 := by omega
    rw [List.cons_append, isCharBoundary_cons c _ n hn0,
      if_neg (by omega : ¬n < c.utf8Size), ih _ (by omega), byteLen_cons]
    congr 1
    omega

theorem takeBytes_zero (l : List Char) : takeBytes l 0 = [] := by
  cases l with
  | nil => rfl
  | cons c cs =>
    have := Char.utf8Size_pos c
    simp [takeBytes]
    omega

theorem takeBytes_cons (c : Char) (cs : List Char) (n : Nat) :
    takeBytes (c :: cs) n =
      if c.utf8Size ≤ n then c :: takeBytes cs (n - c.utf8Size) else [] := rfl

theorem takeBytes_append (l1 l2 : List Char) (n : Nat) (h : byteLen l1 ≤ n) :
    takeBytes (l1 ++ l2) n = l1 ++ takeBytes l2 (n - byteLen l1) := by
  induction l1 generalizing n with
  | nil => simp [byteLen]
  | cons c cs ih =>
    rw [byteLen_cons] at h
    rw [List.cons_append, takeBytes_cons,
      if_pos (by omega : c.utf8Size ≤ n), ih _ (by omega), byteLen_cons,
      List.cons_append]
    have heq : n - c.utf8Size - byteLen cs = n - (c.utf8Size + byteLen cs) := by
      omega
    rw [heq]

theorem floorCharBoundary_self (s : List Char) (n : Nat)
    (h : isCharBoundary s n = true) : floorCharBoundary s n = n := by
  cases n with
  | zero => rfl
  | succ i => simp [floorCharBoundary, h]

theorem findNlCharIdx_hit (s : List Char) (n : Nat) (hn : n ≠ 0)
    (h : s.get? n = some '\n') : findNlCharIdx s n = n := by
  cases n with
  | zero => exact absurd rfl hn
  | succ i =>
    unfold findNlCharIdx
    rw [if_pos h]

theorem findNlCharIdx_miss (s : List Char) (n : Nat) (hn : n ≠ 0)
    (h : s.get? n ≠ some '\n') : findNlCharIdx s n = findNlCharIdx s (n - 1) := by
  cases n with
  | zero => exact absurd rfl hn
  | succ i =>
    have hstep : findNlCharIdx s (i + 1) =
        if s.get? (i + 1) = some '\n' then i + 1 else findNlCharIdx s i := rfl
    rw [hstep, if_neg h]
    rfl

theorem rfindCharIdx_eq_none (c0 : Char) (p s : List Char)
    (h : ∀ x ∈ s, x ≠ c0) : rfindCharIdx (c0 :: p) s = none := by
  induction s with
  | nil => rfl
  | cons c cs ih =>
    have hni := ih fun x hx => h x (List.mem_cons_of_mem _ hx)
    have hc : (c0 == c) = false := by
      have hne := h c (List.mem_cons_self c cs)
      simp [beq_eq_false_iff_ne]
      exact fun he => hne he.symm
    simp [rfindCharIdx, hni, List.isPrefixOf, hc]

theorem replaceChar_id (s : List Char) (c : Char) (r : List Char)
    (h : ∀ x ∈ s, x ≠ c) : replaceChar s c r = s := by
  induction s with
  | nil => rfl
  | cons x xs ih =>
    have hx := h x (List.mem_cons_self x xs)
    have hxs := ih fun y hy => h y (List.mem_cons_of_mem _ hy)
    simp only [replaceChar, List.flatMap_cons, if_neg hx]
    simp only [replaceChar] at hxs
    rw [hxs]
    rfl

theorem escapeHtmlText_id (s : List Char)
    (h : ∀ x ∈ s, x ≠ '&' ∧ x ≠ '<' ∧ x ≠ '>') : escapeHtmlText s = s := by
  unfold escapeHtmlText
  rw [replaceChar_id s '&' _ fun x hx => (h x hx).1]
  rw [replaceChar_id s '<' _ fun x hx => (h x hx).2.1]
  rw [replaceChar_id s '>' _ fun x hx => (h x hx).2.2]

theorem get?_append_right (l1 l2 : List Char) (n : Nat) (h : l1.length ≤ n) :
    (l1 ++ l2).get? n = l2.get? (n - l1.length) := by
  rw [List.get?_eq_getElem?, List.get?_eq_getElem?,
    List.getElem?_append_right h]

/-- Behaviour of the length-ceiling enforcement on its fallback branch:
    when the message is over the limit, no separator occurs in the
    boundary-adjusted 3900-byte prefix, and the newline search lands on a
    positive character index `p`, the code truncates the message at byte
    index `p`. -/
theorem truncateTelegramMessage_fallback (message : List Char) (s0 p : Nat)
    (hbig : byteLen message > TELEGRAM_LIMIT)
    (hs0 : floorCharBoundary message TELEGRAM_LIMIT = s0)
    (hrf : rfindByteIdx SEPARATOR (takeBytes message s0) = none)
    (hp : findNlCharIdx message s0 = p)
    (hppos : p > 0) :
    truncateTelegramMessage message =
      (truncateBytes message p).map fun m => m ++ FALLBACK_NOTICE := by
  unfold truncateTelegramMessage
  rw [if_pos hbig]
  show (match rfindByteIdx SEPARATOR
      (takeBytes message (floorCharBoundary message TELEGRAM_LIMIT)) with
    | some last_separator =>
      Except.map (fun m => m ++ TRUNC_NOTICE)
        (truncateBytes message (last_separator + byteLen SEPARATOR))
    | none =>
      let pos := findNlCharIdx message (floorCharBoundary message TELEGRAM_LIMIT)
      if pos > 0 then
        Except.map (fun m => m ++ FALLBACK_NOTICE) (truncateBytes message pos)
      else Except.ok message) = _
  rw [hs0, hrf]
  show (let pos := findNlCharIdx message s0
    if pos > 0 then
      Except.map (fun m => m ++ FALLBACK_NOTICE) (truncateBytes message pos)
    else Except.ok message) = _
  rw [hp]
  show (if p > 0 then
      Except.map (fun m => m ++ FALLBACK_NOTICE) (truncateBytes message p)
    else Except.ok message) = _
  rw [if_pos hppos]

section

set_option maxRecDepth 2000

theorem longTitle_html_safe :
    ∀ x ∈ longTitle, x ≠ '&' ∧ x ≠ '<' ∧ x ≠ '>' := by
  intro x hx
  unfold longTitle at hx
  rcases List.mem_append.mp hx with h1 | h2
  · rw [List.eq_of_mem_replicate h1]; exact ⟨by decide, by decide, by decide⟩
  · rcases List.mem_cons.mp h2 with h3 | h4
    · rw [h3]; exact ⟨by decide, by decide, by decide⟩
    · rcases List.mem_append.mp h4 with h5 | h6
      · rw [List.eq_of_mem_replicate h5]; exact ⟨by decide, by decide, by decide⟩
      · rcases List.mem_cons.mp h6 with h7 | h8
        · rw [h7]; exact ⟨by decide, by decide, by decide⟩
        · rw [List.eq_of_mem_replicate h8]; exact ⟨by decide, by decide, by decide⟩

theorem compose_panicMessage :
    composeTelegramMessage (fun _ => "1970-01-01 00:00:00".toList)
      panicFeedData = panicMessage := by
  simp only [panicFeedData, composeTelegramMessage, formatItem,
    List.flatMap_cons, List.flatMap_nil, List.append_nil, Option.getD]
  rw [show (String.mk longTitle).toList = longTitle from rfl]
  rw [escapeHtmlText_id longTitle longTitle_html_safe]
  rw [show escapeHtmlText "No description provided".toList =
    "No description provided".toList from by decide]
  rw [if_neg (show ¬(byteLen "No description provided".toList > 200)
    from by decide)]
  rw [show escapeHtmlText "T".toList = "T".toList from by decide]
  unfold longTitle panicMessage panicHead panicTail
  simp only [List.append_assoc, List.cons_append, List.nil_append]
  rfl

theorem panicHead_byteLen : byteLen panicHead = 58 := by decide

theorem panicHead_length : panicHead.length = 52 := by decide

theorem panicTail_byteLen : byteLen panicTail = 94 := by decide

theorem utf8Size_y : ('y' : Char).utf8Size = 1 := by decide

theorem utf8Size_z : ('z' : Char).utf8Size = 1 := by decide

theorem utf8Size_emoji : ('😀' : Char).utf8Size = 4 := by decide

theorem panicMessage_byteLen : byteLen panicMessage = 4202 := by
  unfold panicMessage
  rw [byteLen_append, panicHead_byteLen, byteLen_append, byteLen_replicate,
    utf8Size_y, byteLen_cons, utf8Size_emoji, byteLen_append,
    byteLen_replicate, utf8Size_y, byteLen_cons, byteLen_append,
    byteLen_replicate, utf8Size_z, panicTail_byteLen]
  norm_num
  decide

theorem panicMessage_boundary_3900 :
    isCharBoundary panicMessage 3900 = true := by
  unfold panicMessage
  rw [isCharBoundary_append _ _ _ (by rw [panicHead_byteLen]; norm_num),
    panicHead_byteLen]
  rw [isCharBoundary_append _ _ _
    (by rw [byteLen_replicate, utf8Size_y]; norm_num),
    byteLen_replicate, utf8Size_y]
  norm_num
  rw [isCharBoundary_cons _ _ _ (by norm_num), utf8Size_emoji,
    if_neg (by norm_num)]
  norm_num
  exact isCharBoundary_zero _

theorem panicMessage_not_boundary_3898 :
    isCharBoundary panicMessage 3898 = false := by
  unfold panicMessage
  rw [isCharBoundary_append _ _ _ (by rw [panicHead_byteLen]; norm_num),
    panicHead_byteLen]
  rw [isCharBoundary_append _ _ _
    (by rw [byteLen_replicate, utf8Size_y]; norm_num),
    byteLen_replicate, utf8Size_y]
  norm_num
  rw [isCharBoundary_cons _ _ _ (by norm_num), utf8Size_emoji,
    if_pos (by norm_num)]

theorem panicMessage_take_3900 : takeBytes panicMessage 3900 =
    panicHead ++ (List.replicate 3838 'y' ++ ['😀']) := by
  unfold panicMessage
  rw [takeBytes_append _ _ _ (by rw [panicHead_byteLen]; norm_num),
    panicHead_byteLen]
  rw [takeBytes_append _ _ _
    (by rw [byteLen_replicate, utf8Size_y]; norm_num),
    byteLen_replicate, utf8Size_y]
  norm_num
  rw [takeBytes_cons, utf8Size_emoji, if_pos (by norm_num)]
  norm_num
  rw [takeBytes_zero]

theorem separator_cons : SEPARATOR = '─' :: "────────────\n".toList := by
  decide

theorem panicMessage_no_separator :
    rfindByteIdx SEPARATOR (takeBytes panicMessage 3900) = none := by
  rw [panicMessage_take_3900]
  unfold rfindByteIdx
  rw [separator_cons, rfindCharIdx_eq_none]
  · rfl
  · intro x hx
    rcases List.mem_append.mp hx with h1 | h2
    · have hh : ∀ y ∈ panicHead, y ≠ '─' := by decide
      exact hh x h1
    · rcases List.mem_append.mp h2 with h3 | h4
      · rw [List.eq_of_mem_replicate h3]; decide
      · rcases List.mem_cons.mp h4 with h5 | h6
        · rw [h5]; decide
        · exact absurd h6 (List.not_mem_nil x)

theorem panicMessage_get_3898 : panicMessage.get? 3898 = some '\n' := by
  unfold panicMessage
  rw [get?_append_right _ _ _ (by rw [panicHead_length]; norm_num),
    panicHead_length]
  rw [get?_append_right _ _ _ (by rw [List.length_replicate]; norm_num),
    List.length_replicate]
  decide

theorem panicMessage_get_3899 : panicMessage.get? 3899 = some 'z' := by
  unfold panicMessage
  rw [get?_append_right _ _ _ (by rw [panicHead_length]; norm_num),
    panicHead_length]
  rw [get?_append_right _ _ _ (by rw [List.length_replicate]; norm_num),
    List.length_replicate]
  decide

theorem panicMessage_get_3900 : panicMessage.get? 3900 = some 'z' := by
  unfold panicMessage
  rw [get?_append_right _ _ _ (by rw [panicHead_length]; norm_num),
    panicHead_length]
  rw [get?_append_right _ _ _ (by rw [List.length_replicate]; norm_num),
    List.length_replicate]
  decide

theorem panicMessage_findNl : findNlCharIdx panicMessage 3900 = 3898 := by
  rw [findNlCharIdx_miss _ _ (by norm_num)
    (by rw [panicMessage_get_3900]; decide)]
  rw [show (3900 - 1 : Nat) = 3899 from by norm_num]
  rw [findNlCharIdx_miss _ _ (by norm_num)
    (by rw [panicMessage_get_3899]; decide)]
  rw [show (3899 - 1 : Nat) = 3898 from by norm_num]
  exact findNlCharIdx_hit _ _ (by norm_num) panicMessage_get_3898

theorem panicMessage_truncate_panics : truncateBytes panicMessage 3898 =
    Except.error "new_len does not lie on a char boundary" := by
  unfold truncateBytes
  rw [if_neg (by rw [panicMessage_byteLen]; norm_num),
    panicMessage_not_boundary_3898]
  rfl

end

/-- C9: the composed Telegram message for a feed item whose 4046-character
    title pushes the first per-item separator beyond byte 3900 makes the
    truncation take its fallback branch, which confuses character indices
    with byte indices (`chars().nth(pos)` followed by `truncate(pos)`):
    the newline is found at character index 3898 while byte 3898 lies
    inside the title's 4-byte emoji, so `String::truncate` panics — the
    truncation does split a UTF-8 code point, contradicting the claim. -/
theorem c9_truncation_panics :
    formatTelegramMessage (fun _ => "1970-01-01 00:00:00".toList)
      panicFeedData =
      Except.error "new_len does not lie on a char boundary" := by
  unfold formatTelegramMessage
  rw [compose_panicMessage]
  rw [truncateTelegramMessage_fallback panicMessage 3900 3898
    (by rw [panicMessage_byteLen]; decide)
    (by rw [show TELEGRAM_LIMIT = 3900 from rfl]
        exact floorCharBoundary_self panicMessage 3900
          panicMessage_boundary_3900)
    panicMessage_no_separator panicMessage_findNl (by norm_num)]
  rw [panicMessage_truncate_panics]
  rfl

end Mailfeed
